import Mathlib

/-!
Shallow embedding of the RAG test-harness helpers:
  src/utils/imsHelper.js (ImsHelper: getToken, getOAuthToken, fetchNewToken,
    loadCachedToken, saveCachedToken, isTokenValid),
  src/utils/queryHelper.js (makeQuery), and
  src/unnamed/part_003 (the CI-only duplicated ImsHelper variant).
Machine integers are modelled as Int (JS numbers used here are millisecond
epochs and second counts, far below 2^53, so no overflow is observable).
File-system and network effects are modelled by explicit state and oracles.
-/

/-- A persisted token record (the JSON object cached by ImsHelper).
`expires_at` is an epoch in milliseconds; `none` models a missing field. -/
structure TokenRecord where
  access_token : String
  expires_at : Option Int
deriving DecidableEq

/-- 48 hours in milliseconds (`maxValidDuration` in imsHelper.js line 203). -/
def maxValidDuration : Int := 48 * 60 * 60 * 1000

/-- `ImsHelper.isTokenValid` from src/utils/imsHelper.js lines 188-212.
The JS guard `!tokenData || !tokenData.expires_at` is falsy-based, so a
missing record, a missing `expires_at`, and `expires_at = 0` all yield false;
then `expiresAt <= now` yields false, then a remaining time above 48h yields
false, else true. -/
def isTokenValid (tokenData : Option TokenRecord) (now : Int) : Bool :=
  match tokenData with
  | none => false
  | some td =>
    match td.expires_at with
    | none => false
    | some expiresAt =>
      if expiresAt = 0 then false
      else if expiresAt ≤ now then false
      else if expiresAt - now > maxValidDuration then false
      else true

/-- `ImsHelper.isTokenValid` from the duplicated CI variant
src/unnamed/part_003 lines 133-138: same falsy guard, then simply
`Date.now() < tokenData.expires_at`, with no 48-hour upper bound. -/
def isTokenValidCi (tokenData : Option TokenRecord) (now : Int) : Bool :=
  match tokenData with
  | none => false
  | some td =>
    match td.expires_at with
    | none => false
    | some expiresAt =>
      if expiresAt = 0 then false
      else decide (now < expiresAt)

lemma isTokenValid_some_some (a : String) (e now : Int) :
    isTokenValid (some ⟨a, some e⟩) now = true ↔
      (e ≠ 0 ∧ now < e ∧ e - now ≤ maxValidDuration) := by
  simp only [isTokenValid]
  split_ifs with h0 h1 h2 <;> simp_all <;> try omega

lemma isTokenValidCi_some_some (a : String) (e now : Int) :
    isTokenValidCi (some ⟨a, some e⟩) now = true ↔ (e ≠ 0 ∧ now < e) := by
  simp only [isTokenValidCi]
  split_ifs with h0 <;> simp_all

/-- C2: `isTokenValid` returns true iff the record is present, has an
`expires_at`, `now` is strictly before it, and the remaining time is at most
48 hours; together with the boundary instances listed in the claim
(missing record/field, now+1ms, at-or-before now, now+49h, now+47h). -/
theorem isTokenValid_spec (now : Int) (hnow : 0 ≤ now) :
    (∀ tokenData : Option TokenRecord, isTokenValid tokenData now = true ↔
        ∃ td e, tokenData = some td ∧ td.expires_at = some e ∧
          now < e ∧ e - now ≤ 48 * 60 * 60 * 1000) ∧
    isTokenValid none now = false ∧
    (∀ a : String, isTokenValid (some ⟨a, none⟩) now = false) ∧
    (∀ a : String, isTokenValid (some ⟨a, some (now + 1)⟩) now = true) ∧
    (∀ a : String, ∀ e : Int, e ≤ now →
        isTokenValid (some ⟨a, some e⟩) now = false) ∧
    (∀ a : String,
        isTokenValid (some ⟨a, some (now + 49 * 60 * 60 * 1000)⟩) now = false) ∧
    (∀ a : String,
        isTokenValid (some ⟨a, some (now + 47 * 60 * 60 * 1000)⟩) now = true) := by
  have key : ∀ tokenData : Option TokenRecord, isTokenValid tokenData now = true ↔
      ∃ td e, tokenData = some td ∧ td.expires_at = some e ∧
        now < e ∧ e - now ≤ 48 * 60 * 60 * 1000 := by
    intro tokenData
    match tokenData with
    | none => simp [isTokenValid]
    | some ⟨a, none⟩ => simp [isTokenValid]
    | some ⟨a, some e⟩ =>
      rw [isTokenValid_some_some]
      constructor
      · rintro ⟨h0, h1, h2⟩
        exact ⟨⟨a, some e⟩, e, rfl, rfl, h1, by simpa [maxValidDuration] using h2⟩
      · rintro ⟨td, e2, htd, hexp, h1, h2⟩
        obtain rfl : td = ⟨a, some e⟩ := by injection htd with h; exact h.symm
        obtain rfl : e = e2 := by simpa using hexp
        refine ⟨by omega, h1, by simpa [maxValidDuration] using h2⟩
  refine ⟨key, by simp [isTokenValid], fun a => by simp [isTokenValid], ?_, ?_, ?_, ?_⟩
  · intro a
    rw [isTokenValid_some_some]
    refine ⟨by omega, by omega, by rw [maxValidDuration]; omega⟩
  · intro a e he
    rw [Bool.eq_false_iff]
    intro h
    rw [isTokenValid_some_some] at h
    omega
  · intro a
    rw [Bool.eq_false_iff]
    intro h
    rw [isTokenValid_some_some] at h
    rcases h with ⟨-, -, h2⟩
    rw [maxValidDuration] at h2
    omega
  · intro a
    rw [isTokenValid_some_some]
    refine ⟨by omega, by omega, ?_⟩
    rw [maxValidDuration]
    omega

/-- C2 witness at now = 1000. -/
theorem isTokenValid_spec_witness :
    (0 : Int) ≤ 1000 ∧ isTokenValid (some ⟨"tok", some 1001⟩) 1000 = true := by
  refine ⟨by decide, ?_⟩
  have h := (isTokenValid_spec 1000 (by decide)).2.2.2.1 "tok"
  simpa using h

/-- C9 counterexample: at now = 0 and a record expiring 49 hours in the
future (176400000 ms), the main helper's `isTokenValid` returns false (48h
plausibility ceiling) while the part_003 variant returns true, so the two
variants do not agree on records expiring more than 48 hours in the future. -/
theorem isTokenValid_variants_cex :
    isTokenValid (some ⟨"tok", some 176400000⟩) 0 = false ∧
    isTokenValidCi (some ⟨"tok", some 176400000⟩) 0 = true ∧
    isTokenValid (some ⟨"tok", some 176400000⟩) 0 ≠
      isTokenValidCi (some ⟨"tok", some 176400000⟩) 0 := by
  refine ⟨by decide, by decide, by decide⟩

/-- C9 amended: the two `isTokenValid` variants agree on every record whose
`expires_at` (when present) is at most 48 hours after `now`; they differ
exactly on records strictly in the future by more than 48 hours, where the
main helper returns false and the part_003 variant returns true. -/
theorem isTokenValid_variants_agree (tokenData : Option TokenRecord) (now : Int)
    (h : ∀ td e, tokenData = some td → td.expires_at = some e →
        e - now ≤ maxValidDuration) :
    isTokenValid tokenData now = isTokenValidCi tokenData now := by
  match tokenData with
  | none => rfl
  | some ⟨a, none⟩ => rfl
  | some ⟨a, some e⟩ =>
    have hbound := h ⟨a, some e⟩ e rfl rfl
    by_cases h0 : e = 0
    · subst h0
      simp [isTokenValid, isTokenValidCi]
    · by_cases h1 : now < e
      · have hv : isTokenValid (some ⟨a, some e⟩) now = true :=
          (isTokenValid_some_some a e now).2 ⟨h0, h1, hbound⟩
        have hv2 : isTokenValidCi (some ⟨a, some e⟩) now = true :=
          (isTokenValidCi_some_some a e now).2 ⟨h0, h1⟩
        rw [hv, hv2]
      · have hv : isTokenValid (some ⟨a, some e⟩) now = false := by
          rw [Bool.eq_false_iff]
          intro hc
          rw [isTokenValid_some_some] at hc
          exact h1 hc.2.1
        have hv2 : isTokenValidCi (some ⟨a, some e⟩) now = false := by
          rw [Bool.eq_false_iff]
          intro hc
          rw [isTokenValidCi_some_some] at hc
          exact h1 hc.2
        rw [hv, hv2]

/-- C9 amended witness: a record within the 48-hour window at now = 0. -/
theorem isTokenValid_variants_agree_witness :
    isTokenValid (some ⟨"tok", some 1000⟩) 0 =
      isTokenValidCi (some ⟨"tok", some 1000⟩) 0 := by
  refine isTokenValid_variants_agree (some ⟨"tok", some 1000⟩) 0 ?_
  intro td e h1 h2
  obtain rfl : td = ⟨"tok", some 1000⟩ := by injection h1 with h; exact h.symm
  obtain rfl : e = 1000 := by simpa using h2.symm
  decide

/-! ## Query helper (src/utils/queryHelper.js) -/

/-- A JS header object, modelled as a partial map from header name to value
(JS object keys are case-sensitive; insertion order is never observed). -/
abbrev Headers := String → Option String

/-- The empty header object. -/
def emptyHeaders : Headers := fun _ => none

/-- JS property assignment `obj[k] = v` on a header object. -/
def updateHeader (hs : Headers) (k v : String) : Headers :=
  fun k2 => if k2 = k then some v else hs k2

/-- JS object spread `\x7b...base, ...extra\x7d`: keys of `extra` win. -/
def spreadHeaders (base extra : Headers) : Headers :=
  fun k => match extra k with
    | some v => some v
    | none => base k

/-- A JSON value, for the parsed response body. -/
inductive JsonValue where
  | null : JsonValue
  | bool : Bool → JsonValue
  | num : Int → JsonValue
  | str : String → JsonValue
  | arr : List JsonValue → JsonValue
  | obj : List (String × JsonValue) → JsonValue

/-- The options object of `makeQuery` (queryHelper.js lines 36-42), with the
same defaults as the JS destructuring. -/
structure QueryOptions where
  token : Option String := none
  authHeader : Option String := none
  count : Int := 3
  indexName : Option String := none
  customHeaders : Headers := emptyHeaders

/-- The JSON request body `\x7bquery, count, indexName\x7d`. -/
structure QueryBody where
  query : String
  count : Int
  indexName : Option String

/-- An outgoing HTTP request as built by `makeQuery`. -/
structure HttpRequest where
  url : String
  method : String
  headers : Headers
  body : QueryBody

/-- A completed HTTP response: status and raw text body. -/
structure HttpResponse where
  status : Nat
  text : String

/-- Header construction of `makeQuery` (queryHelper.js lines 52-65): start
from `\x7b'Content-Type': 'application/json', ...customHeaders\x7d`, then assign
`headers.Authorization = authHeader` if `authHeader !== null`, else
`headers.Authorization = 'Bearer ' + token` if `token !== null`, else leave
the object untouched. -/
def buildHeaders (options : QueryOptions) : Headers :=
  let base := spreadHeaders
    (updateHeader emptyHeaders "Content-Type" "application/json")
    options.customHeaders
  match options.authHeader with
  | some a => updateHeader base "Authorization" a
  | none =>
    match options.token with
    | some t => updateHeader base "Authorization" ("Bearer " ++ t)
    | none => base

/-- The request `makeQuery` sends (queryHelper.js lines 49 and 68-72). -/
def builtRequest (endpointBase : String) (query : String)
    (options : QueryOptions) : HttpRequest :=
  ⟨endpointBase ++ "/api/query", "POST", buildHeaders options,
    ⟨query, options.count, options.indexName⟩⟩

/-- The synthesized body for empty responses (queryHelper.js line 82). -/
def emptyResponseJson : JsonValue :=
  .obj [("error", .str "empty_response"),
        ("message", .str "Server returned empty response")]

/-- Outcome of a `makeQuery` call. `configError` is the throw before any
request (missing APIM_ENDPOINT, line 47); `invalidJson` is the throw after
the exchange (line 90) — it records the sent request and the response as
model instrumentation; `ok` is the returned `\x7bresponse, data\x7d` pair. -/
inductive MakeQueryOutcome where
  | configError (msg : String)
  | invalidJson (request : HttpRequest) (response : HttpResponse) (msg : String)
  | ok (request : HttpRequest) (response : HttpResponse) (data : JsonValue)

/-- The JS test `responseText.trim() === ''`: a string trims to empty iff
every character is whitespace. Modelled character-wise because the claims
only distinguish empty/whitespace-only bodies from non-blank ones. -/
def isBlank (s : String) : Bool :=
  s.data.all (fun c => c.isWhitespace)

/-- Response handling of `makeQuery` (queryHelper.js lines 74-93): an empty
or whitespace-only text body yields the synthesized `empty_response` data; a
non-empty body is given to `JSON.parse` (the oracle), returning the parsed
data or throwing `Invalid JSON response: ...` with the parser's message. -/
def handleResponse (parseJson : String → Except String JsonValue)
    (req : HttpRequest) (response : HttpResponse) : MakeQueryOutcome :=
  if response.text = "" ∨ isBlank response.text = true then
    .ok req response emptyResponseJson
  else
    match parseJson response.text with
    | .ok data => .ok req response data
    | .error msg => .invalidJson req response ("Invalid JSON response: " ++ msg)

/-- `makeQuery` from src/utils/queryHelper.js lines 35-94. The network is an
oracle `fetchFn`; `JSON.parse` is an oracle `parseJson` returning either the
parsed value or the parser's error message. The JS guards `!APIM_ENDPOINT`
and `!responseText || responseText.trim() === ''` are falsy-based, hence the
explicit empty-string checks. -/
def makeQuery (apimEndpoint : Option String)
    (parseJson : String → Except String JsonValue)
    (fetchFn : HttpRequest → HttpResponse)
    (query : String) (options : QueryOptions) : MakeQueryOutcome :=
  match apimEndpoint with
  | none => .configError "APIM_ENDPOINT not configured in environment variables"
  | some endpointBase =>
    if endpointBase = "" then
      .configError "APIM_ENDPOINT not configured in environment variables"
    else
      handleResponse parseJson (builtRequest endpointBase query options)
        (fetchFn (builtRequest endpointBase query options))

/-- The headers of the request a `makeQuery` outcome actually sent, if any. -/
def sentHeader (out : MakeQueryOutcome) (k : String) : Option (Option String) :=
  match out with
  | .configError _ => none
  | .invalidJson req _ _ => some (req.headers k)
  | .ok req _ _ => some (req.headers k)

lemma updateHeader_same (hs : Headers) (k v : String) :
    updateHeader hs k v k = some v := by
  simp [updateHeader]

lemma updateHeader_other (hs : Headers) (k v k2 : String) (h : k2 ≠ k) :
    updateHeader hs k v k2 = hs k2 := by
  simp [updateHeader, h]

lemma buildHeaders_contentType (options : QueryOptions) :
    buildHeaders options "Content-Type" =
      spreadHeaders (updateHeader emptyHeaders "Content-Type" "application/json")
        options.customHeaders "Content-Type" := by
  have hne : "Content-Type" ≠ "Authorization" := by decide
  cases ha : options.authHeader <;> cases ht : options.token <;>
    simp [buildHeaders, ha, ht, updateHeader_other _ _ _ _ hne]

lemma sentHeader_handleResponse (parseJson : String → Except String JsonValue)
    (req : HttpRequest) (response : HttpResponse) (k : String) :
    sentHeader (handleResponse parseJson req response) k = some (req.headers k) := by
  unfold handleResponse
  split_ifs with h1
  · rfl
  · cases hp : parseJson response.text <;> simp [sentHeader]

lemma makeQuery_eq_handleResponse (e : String) (he : e ≠ "")
    (parseJson : String → Except String JsonValue)
    (fetchFn : HttpRequest → HttpResponse) (q : String) (options : QueryOptions) :
    makeQuery (some e) parseJson fetchFn q options =
      handleResponse parseJson (builtRequest e q options)
        (fetchFn (builtRequest e q options)) := by
  simp [makeQuery, he]

/-- C10: a `customHeaders` Authorization entry is not authoritative: the
value derived from `authHeader` (verbatim) or `token` (Bearer-prefixed)
overwrites it whenever one of the two is non-null, and the `customHeaders`
Authorization value survives exactly when both are null; a `customHeaders`
Content-Type entry, by contrast, replaces the `application/json` default. -/
theorem buildHeaders_custom_auth_not_authoritative (options : QueryOptions) :
    (∀ a, options.authHeader = some a →
        buildHeaders options "Authorization" = some a) ∧
    (∀ t, options.authHeader = none → options.token = some t →
        buildHeaders options "Authorization" = some ("Bearer " ++ t)) ∧
    (options.authHeader = none → options.token = none →
        buildHeaders options "Authorization" =
          options.customHeaders "Authorization") ∧
    (∀ v, options.customHeaders "Content-Type" = some v →
        buildHeaders options "Content-Type" = some v) ∧
    (options.customHeaders "Content-Type" = none →
        buildHeaders options "Content-Type" = some "application/json") := by
  have hne : "Content-Type" ≠ "Authorization" := by decide
  have hne2 : "Authorization" ≠ "Content-Type" := by decide
  refine ⟨?_, ?_, ?_, ?_, ?_⟩
  · intro a ha
    simp [buildHeaders, ha, updateHeader_same]
  · intro t h1 h2
    simp [buildHeaders, h1, h2, updateHeader_same]
  · intro h1 h2
    simp only [buildHeaders, h1, h2, spreadHeaders]
    rw [updateHeader_other _ _ _ _ hne2]
    cases hc : options.customHeaders "Authorization" <;> simp [hc, emptyHeaders]
  · intro v hv
    rw [buildHeaders_contentType]
    simp [spreadHeaders, hv]
  · intro hv
    rw [buildHeaders_contentType]
    simp [spreadHeaders, hv, updateHeader, emptyHeaders]

/-- C10 witness: with token "t", authHeader "X" and a customHeaders
Authorization entry "Z", the sent Authorization is "X". -/
theorem buildHeaders_custom_auth_not_authoritative_witness :
    buildHeaders ⟨some "t", some "X", 3, none,
        fun k => if k = "Authorization" then some "Z" else none⟩
      "Authorization" = some "X" :=
  (buildHeaders_custom_auth_not_authoritative _).1 "X" rfl

/-- C3 counterexample: with token = null and authHeader = null but a
customHeaders Authorization entry "Z", `makeQuery` does send an
Authorization header (value "Z"), so "no Authorization header is sent at
all" fails for this call. -/
theorem makeQuery_missing_auth_cex :
    sentHeader
      (makeQuery (some "E") (fun _ => .ok .null) (fun _ => ⟨200, "x"⟩) "q"
        ⟨none, none, 3, none,
          fun k => if k = "Authorization" then some "Z" else none⟩)
      "Authorization" = some (some "Z") := by
  decide

/-- C3 amended: `makeQuery` sends exactly `buildHeaders options`, whose
Authorization is: the `authHeader` override verbatim when non-null; else
`Bearer token` when `token` is non-null; else the header is absent provided
`customHeaders` does not itself supply an Authorization entry (a
customHeaders entry survives only when both options are null). -/
theorem makeQuery_auth_precedence_amended (e : String) (he : e ≠ "")
    (parseJson : String → Except String JsonValue)
    (fetchFn : HttpRequest → HttpResponse) (q : String) (options : QueryOptions) :
    (∀ k, sentHeader (makeQuery (some e) parseJson fetchFn q options) k =
        some (buildHeaders options k)) ∧
    (∀ a, options.authHeader = some a →
        buildHeaders options "Authorization" = some a) ∧
    (∀ t, options.authHeader = none → options.token = some t →
        buildHeaders options "Authorization" = some ("Bearer " ++ t)) ∧
    (options.authHeader = none → options.token = none →
        options.customHeaders "Authorization" = none →
        buildHeaders options "Authorization" = none) := by
  refine ⟨?_, ?_, ?_, ?_⟩
  · intro k
    rw [makeQuery_eq_handleResponse e he, sentHeader_handleResponse]
    rfl
  · intro a ha
    simp [buildHeaders, ha, updateHeader_same]
  · intro t h1 h2
    simp [buildHeaders, h1, h2, updateHeader_same]
  · intro h1 h2 h3
    simp [buildHeaders, h1, h2, spreadHeaders, h3, updateHeader, emptyHeaders]

/-- C3 amended witness: authHeader "X" wins over token "t". -/
theorem makeQuery_auth_precedence_amended_witness :
    sentHeader
      (makeQuery (some "E") (fun _ => .ok .null) (fun _ => ⟨200, "b"⟩) "q"
        ⟨some "t", some "X", 3, none, emptyHeaders⟩)
      "Authorization" =
      some (buildHeaders ⟨some "t", some "X", 3, none, emptyHeaders⟩
        "Authorization") :=
  (makeQuery_auth_precedence_amended "E" (by decide) _ _ "q" _).1 "Authorization"

/-- C5: for any completed exchange whose text body trims to the empty
string — at any status — `makeQuery` does not throw and returns the
synthesized `empty_response` data; the result is the same for every
`parseJson` oracle, i.e. no JSON parse is attempted. -/
theorem makeQuery_empty_body (e : String) (he : e ≠ "")
    (parseJson : String → Except String JsonValue)
    (fetchFn : HttpRequest → HttpResponse) (q : String) (options : QueryOptions)
    (hempty : isBlank (fetchFn (builtRequest e q options)).text = true) :
    makeQuery (some e) parseJson fetchFn q options =
      .ok (builtRequest e q options) (fetchFn (builtRequest e q options))
        emptyResponseJson := by
  rw [makeQuery_eq_handleResponse e he]
  unfold handleResponse
  rw [if_pos (Or.inr hempty)]

/-- C5 witness: status 401, empty body. -/
theorem makeQuery_empty_body_witness :
    makeQuery (some "E") (fun _ => .error "boom") (fun _ => ⟨401, ""⟩) "q"
        ⟨none, none, 3, none, emptyHeaders⟩ =
      .ok (builtRequest "E" "q" ⟨none, none, 3, none, emptyHeaders⟩) ⟨401, ""⟩
        emptyResponseJson :=
  makeQuery_empty_body "E" (by decide) _ _ "q" _ (by decide)

/-- C6: with the endpoint configured, a non-empty non-JSON body is the one
body-handling case in which `makeQuery` throws, with the message wrapping
the parser's own; any parseable body yields the `(response, data)` pair and
any empty body yields the synthesized data, both regardless of status. -/
theorem makeQuery_invalid_json_spec (e : String) (he : e ≠ "")
    (parseJson : String → Except String JsonValue)
    (fetchFn : HttpRequest → HttpResponse) (q : String) (options : QueryOptions)
    (resp : HttpResponse) (hresp : fetchFn (builtRequest e q options) = resp) :
    (∀ msg, isBlank resp.text = false → parseJson resp.text = .error msg →
        makeQuery (some e) parseJson fetchFn q options =
          .invalidJson (builtRequest e q options) resp
            ("Invalid JSON response: " ++ msg)) ∧
    (∀ d, isBlank resp.text = false → parseJson resp.text = .ok d →
        makeQuery (some e) parseJson fetchFn q options =
          .ok (builtRequest e q options) resp d) ∧
    (isBlank resp.text = true →
        makeQuery (some e) parseJson fetchFn q options =
          .ok (builtRequest e q options) resp emptyResponseJson) := by
  have hw : ∀ s : String, s = "" → isBlank s = true := by
    intro s hs
    rw [hs]
    decide
  refine ⟨?_, ?_, ?_⟩
  · intro msg h1 h2
    rw [makeQuery_eq_handleResponse e he, hresp]
    unfold handleResponse
    have hne : ¬(resp.text = "" ∨ isBlank resp.text = true) := by
      rintro (h | h)
      · rw [hw _ h] at h1
        exact Bool.noConfusion h1
      · rw [h] at h1
        exact Bool.noConfusion h1
    rw [if_neg hne, h2]
  · intro d h1 h2
    rw [makeQuery_eq_handleResponse e he, hresp]
    unfold handleResponse
    have hne : ¬(resp.text = "" ∨ isBlank resp.text = true) := by
      rintro (h | h)
      · rw [hw _ h] at h1
        exact Bool.noConfusion h1
      · rw [h] at h1
        exact Bool.noConfusion h1
    rw [if_neg hne, h2]
  · intro h1
    rw [makeQuery_eq_handleResponse e he, hresp]
    unfold handleResponse
    rw [if_pos (Or.inr h1)]

/-- C6 witness: body "nope", parser error "boom". -/
theorem makeQuery_invalid_json_spec_witness :
    makeQuery (some "E") (fun _ => .error "boom") (fun _ => ⟨400, "nope"⟩) "q"
        ⟨none, none, 3, none, emptyHeaders⟩ =
      .invalidJson (builtRequest "E" "q" ⟨none, none, 3, none, emptyHeaders⟩)
        ⟨400, "nope"⟩ ("Invalid JSON response: " ++ "boom") :=
  (makeQuery_invalid_json_spec "E" (by decide) _ _ "q" _ ⟨400, "nope"⟩ rfl).1
    "boom" (by decide) rfl

/-! ## Credential provider (src/utils/imsHelper.js) -/

/-- OAuth S2S credentials read from the environment in the ImsHelper
constructor (imsHelper.js lines 19-20); a missing env var defaults to "". -/
structure ImsConfig where
  oauthClientId : String
  oauthClientSecret : String

/-- The on-disk cache file: absent, present but unreadable or unparseable,
or holding a parsed token record. -/
inductive CacheState where
  | missing
  | corrupt
  | stored (record : TokenRecord)
deriving DecidableEq

/-- Observable side effects of the OAuth flow: a POST to the configured
token URL, or a successful overwrite of the cache file. -/
inductive ImsEvent where
  | httpPost
  | cacheWrite
deriving DecidableEq

/-- Errors thrown by the OAuth flow. -/
inductive ImsError where
  | configError (msg : String)
  | authFetchError (msg : String)
deriving DecidableEq

/-- The token endpoint's reply — the oracle for the single POST the flow
may perform: a success JSON body (access_token plus optional expires_in in
seconds), or a non-ok response carrying its error description. -/
inductive FetchOutcome where
  | success (access_token : String) (expires_in : Option Int)
  | failure (errorDescription : String)

/-- `ImsHelper.loadCachedToken` (lines 158-168): a missing file, a read
error and a parse error all yield null. -/
def loadCachedToken : CacheState → Option TokenRecord
  | .missing => none
  | .corrupt => none
  | .stored t => some t

/-- `ImsHelper.fetchNewToken` (lines 110-152): throws before any request
when either credential is the empty string (JS falsy); otherwise performs
the POST and, on a success body, stamps
`expires_at = now + (expiresIn - 300) * 1000` where `expiresIn` is
`data.expires_in || 86400` (absent and 0 are both falsy). -/
def fetchNewToken (cfg : ImsConfig) (now : Int) (outcome : FetchOutcome) :
    Except ImsError TokenRecord × List ImsEvent :=
  if cfg.oauthClientId = "" ∨ cfg.oauthClientSecret = "" then
    (.error (.configError "OAuth credentials not configured. Set IMS_CLIENT_ID and IMS_CLIENT_SECRET in .env for local tests"), [])
  else
    match outcome with
    | .failure desc => (.error (.authFetchError desc), [.httpPost])
    | .success tok expIn =>
      let expiresIn : Int := match expIn with
        | none => 86400
        | some n => if n = 0 then 86400 else n
      (.ok ⟨tok, some (now + (expiresIn - 300) * 1000)⟩, [.httpPost])

/-- `ImsHelper.saveCachedToken` (lines 174-181): a full overwrite of the
cache file; a write failure is logged and swallowed, leaving the file as it
was and emitting no write. -/
def saveCachedToken (writeFails : Bool) (cache : CacheState) (t : TokenRecord) :
    CacheState × List ImsEvent :=
  if writeFails then (cache, []) else (.stored t, [.cacheWrite])

/-- Result of a `getOAuthToken` call: the returned access token or thrown
error, the final cache file state, and the effect trace. -/
structure OAuthResult where
  result : Except ImsError String
  cache : CacheState
  events : List ImsEvent

/-- The fetch-then-save tail of `getOAuthToken` (lines 97-103): a fetch
error propagates untouched; a fetched record is saved (best effort) and its
access_token returned. -/
def oauthFetchAndSave (cfg : ImsConfig) (now : Int) (outcome : FetchOutcome)
    (writeFails : Bool) (cache : CacheState) : OAuthResult :=
  match fetchNewToken cfg now outcome with
  | (.error err, evs) => ⟨.error err, cache, evs⟩
  | (.ok tok, evs) =>
    let saved := saveCachedToken writeFails cache tok
    ⟨.ok tok.access_token, saved.1, evs ++ saved.2⟩

/-- `ImsHelper.getOAuthToken` (lines 81-104): return the cached record's
access_token when present and valid (no network, no write); otherwise fetch
a new record, attempt to cache it, and return its access_token. -/
def getOAuthToken (cfg : ImsConfig) (cache : CacheState) (now : Int)
    (outcome : FetchOutcome) (writeFails : Bool) : OAuthResult :=
  match loadCachedToken cache with
  | some t =>
    if isTokenValid (some t) now then ⟨.ok t.access_token, cache, []⟩
    else oauthFetchAndSave cfg now outcome writeFails cache
  | none => oauthFetchAndSave cfg now outcome writeFails cache

/-- The environment variables consulted during token-source resolution. -/
structure ProcessEnv where
  github_actions : Option String
  ci : Option String
  ims_token : Option String

/-- JS truthiness of an environment variable: set and non-empty. -/
def truthy : Option String → Bool
  | none => false
  | some s => s != ""

/-- The credential source a resolution call settles on. -/
inductive TokenSource where
  | oauthFlow
  | localCli
  | envOverride (token : String)
deriving DecidableEq

/-- `ImsHelper.getToken` (imsHelper.js lines 36-50; identically
imsHelper.ts lines 47-58): `isCI = GITHUB_ACTIONS || CI`; the OAuth
cache-then-fetch flow when truthy, the local aio CLI otherwise. The method
consults no override variable. -/
def getToken (env : ProcessEnv) : TokenSource :=
  if truthy env.github_actions || truthy env.ci then .oauthFlow else .localCli

/-- `getImsToken` from src/e2e/query.test.js lines 48-77: the IMS_TOKEN
override is returned immediately when truthy, before CI detection (which
here tests GITHUB_ACTIONS only) and before any ImsHelper call. -/
def getImsToken (env : ProcessEnv) : TokenSource :=
  if truthy env.ims_token then .envOverride (env.ims_token.getD "")
  else if truthy env.github_actions then .oauthFlow
  else .localCli

/-- C1 counterexample: with the override variable set to "manual-token" and
GITHUB_ACTIONS = "true", `ImsHelper.getToken` resolves to the OAuth
cache-then-fetch flow, not to the override value: the override is not
returned immediately (nor at all). -/
theorem getToken_ignores_override_cex :
    getToken ⟨some "true", none, some "manual-token"⟩ = TokenSource.oauthFlow ∧
    getToken ⟨some "true", none, some "manual-token"⟩ ≠
      TokenSource.envOverride "manual-token" := by
  exact ⟨by decide, by decide⟩

/-- C1 amended: `ImsHelper.getToken` performs no override check — its result
is independent of the override variable and is decided by CI detection alone
(OAuth flow when GITHUB_ACTIONS or CI is truthy, local CLI otherwise); the
override-first resolution exists only in the e2e suite's `getImsToken`
wrapper, which returns the IMS_TOKEN value immediately when truthy, before
CI detection, the OAuth flow and the local login. -/
theorem getToken_override_amended :
    (∀ g c o1 o2, getToken ⟨g, c, o1⟩ = getToken ⟨g, c, o2⟩) ∧
    (∀ env, (truthy env.github_actions || truthy env.ci) = true →
        getToken env = TokenSource.oauthFlow) ∧
    (∀ env, (truthy env.github_actions || truthy env.ci) = false →
        getToken env = TokenSource.localCli) ∧
    (∀ env t, env.ims_token = some t → t ≠ "" →
        getImsToken env = TokenSource.envOverride t) := by
  refine ⟨fun g c o1 o2 => rfl, ?_, ?_, ?_⟩
  · intro env h
    simp [getToken, h]
  · intro env h
    simp [getToken, h]
  · intro env t h1 h2
    have ht : truthy env.ims_token = true := by
      rw [h1]
      simp [truthy, h2]
    unfold getImsToken
    rw [ht, h1]
    simp

/-- C1 amended witness: the override wins in the e2e wrapper. -/
theorem getToken_override_amended_witness :
    getImsToken ⟨some "true", none, some "manual-token"⟩ =
      TokenSource.envOverride "manual-token" :=
  getToken_override_amended.2.2.2 ⟨some "true", none, some "manual-token"⟩
    "manual-token" rfl (by decide)

/-- C4: if the cached record loads and is valid, its access_token is
returned with no HTTP call and no cache write; otherwise — here from a
missing cache file, with configured credentials and a success body
access_token "abc" / expires_in 3600 — exactly one POST happens, the record
stamped `expires_at = now + (3600 - 300) * 1000 = now + 3300000` is
persisted by full overwrite, and "abc" is returned. -/
theorem getOAuthToken_cache_behavior :
    (∀ cfg cache now outcome writeFails t,
        loadCachedToken cache = some t → isTokenValid (some t) now = true →
        getOAuthToken cfg cache now outcome writeFails =
          ⟨.ok t.access_token, cache, []⟩) ∧
    (∀ cfg : ImsConfig, ∀ now : Int,
        cfg.oauthClientId ≠ "" → cfg.oauthClientSecret ≠ "" →
        getOAuthToken cfg .missing now (.success "abc" (some 3600)) false =
          ⟨.ok "abc", .stored ⟨"abc", some (now + 3300000)⟩,
            [.httpPost, .cacheWrite]⟩) := by
  constructor
  · intro cfg cache now outcome writeFails t hload hvalid
    simp [getOAuthToken, hload, hvalid]
  · intro cfg now h1 h2
    simp [getOAuthToken, loadCachedToken, oauthFetchAndSave, fetchNewToken,
      h1, h2, saveCachedToken]

/-- C4 witness: a valid cache hit at now = 0, and a miss fetching "abc". -/
theorem getOAuthToken_cache_behavior_witness :
    getOAuthToken ⟨"id", "secret"⟩ (.stored ⟨"tok", some 1000⟩) 0
        (.failure "unused") false = ⟨.ok "tok", .stored ⟨"tok", some 1000⟩, []⟩ ∧
    getOAuthToken ⟨"id", "secret"⟩ .missing 5 (.success "abc" (some 3600)) false =
      ⟨.ok "abc", .stored ⟨"abc", some (5 + 3300000)⟩,
        [.httpPost, .cacheWrite]⟩ :=
  ⟨getOAuthToken_cache_behavior.1 ⟨"id", "secret"⟩ (.stored ⟨"tok", some 1000⟩)
      0 (.failure "unused") false ⟨"tok", some 1000⟩ rfl (by decide),
    getOAuthToken_cache_behavior.2 ⟨"id", "secret"⟩ 5 (by decide) (by decide)⟩

/-- C7: with a missing client id or secret, `fetchNewToken` throws a
ConfigError before any POST (zero events), and a `getOAuthToken` call that
reaches the fetch step (no valid cached record) propagates that error with
zero network calls and the cache file untouched. -/
theorem fetchNewToken_config_guard :
    (∀ cfg : ImsConfig, ∀ now : Int, ∀ outcome : FetchOutcome,
        cfg.oauthClientId = "" ∨ cfg.oauthClientSecret = "" →
        fetchNewToken cfg now outcome =
          (.error (.configError "OAuth credentials not configured. Set IMS_CLIENT_ID and IMS_CLIENT_SECRET in .env for local tests"), [])) ∧
    (∀ cfg cache now outcome writeFails,
        cfg.oauthClientId = "" ∨ cfg.oauthClientSecret = "" →
        (∀ t, loadCachedToken cache = some t → isTokenValid (some t) now = false) →
        getOAuthToken cfg cache now outcome writeFails =
          ⟨.error (.configError "OAuth credentials not configured. Set IMS_CLIENT_ID and IMS_CLIENT_SECRET in .env for local tests"), cache, []⟩) := by
  constructor
  · intro cfg now outcome h
    simp [fetchNewToken, h]
  · intro cfg cache now outcome writeFails h hmiss
    cases hc : loadCachedToken cache with
    | none => simp [getOAuthToken, hc, oauthFetchAndSave, fetchNewToken, h]
    | some t =>
      simp [getOAuthToken, hc, hmiss t hc, oauthFetchAndSave, fetchNewToken, h]

/-- C7 witness: empty client id, empty cache. -/
theorem fetchNewToken_config_guard_witness :
    getOAuthToken ⟨"", "secret"⟩ .missing 0 (.success "abc" (some 3600)) false =
      ⟨.error (.configError "OAuth credentials not configured. Set IMS_CLIENT_ID and IMS_CLIENT_SECRET in .env for local tests"), .missing, []⟩ :=
  fetchNewToken_config_guard.2 ⟨"", "secret"⟩ .missing 0
    (.success "abc" (some 3600)) false (Or.inl rfl)
    (fun t ht => by simp [loadCachedToken] at ht)

/-- C8: cache failures never fail the call: a corrupt (unreadable or
unparseable) cache file behaves exactly as a cache miss in result and effect
trace; the returned result never depends on whether the cache write fails;
and when the write does fail after a successful fetch, the fresh
access_token is still returned and the cache file is left as it was. -/
theorem getOAuthToken_cache_failures_nonfatal :
    (∀ cfg now outcome writeFails,
        (getOAuthToken cfg .corrupt now outcome writeFails).result =
          (getOAuthToken cfg .missing now outcome writeFails).result ∧
        (getOAuthToken cfg .corrupt now outcome writeFails).events =
          (getOAuthToken cfg .missing now outcome writeFails).events) ∧
    (∀ cfg cache now outcome writeFails,
        (getOAuthToken cfg cache now outcome writeFails).result =
          (getOAuthToken cfg cache now outcome false).result) ∧
    (∀ cfg cache now outcome tok evs,
        fetchNewToken cfg now outcome = (.ok tok, evs) →
        (∀ t, loadCachedToken cache = some t → isTokenValid (some t) now = false) →
        getOAuthToken cfg cache now outcome true =
          ⟨.ok tok.access_token, cache, evs⟩) := by
  refine ⟨?_, ?_, ?_⟩
  · intro cfg now outcome writeFails
    simp only [getOAuthToken, loadCachedToken]
    cases hf : fetchNewToken cfg now outcome with
    | mk r evs =>
      cases r with
      | error err => simp [oauthFetchAndSave, hf]
      | ok tok => cases writeFails <;> simp [oauthFetchAndSave, hf, saveCachedToken]
  · intro cfg cache now outcome writeFails
    cases hc : loadCachedToken cache with
    | some t =>
      by_cases hv : isTokenValid (some t) now = true
      · simp [getOAuthToken, hc, hv]
      · rw [Bool.not_eq_true] at hv
        simp only [getOAuthToken, hc, hv, Bool.false_eq_true, if_false]
        cases hf : fetchNewToken cfg now outcome with
        | mk r evs =>
          cases r with
          | error err => simp [oauthFetchAndSave, hf]
          | ok tok => simp [oauthFetchAndSave, hf, saveCachedToken]
    | none =>
      simp only [getOAuthToken, hc]
      cases hf : fetchNewToken cfg now outcome with
      | mk r evs =>
        cases r with
        | error err => simp [oauthFetchAndSave, hf]
        | ok tok => simp [oauthFetchAndSave, hf, saveCachedToken]
  · intro cfg cache now outcome tok evs hf hmiss
    cases hc : loadCachedToken cache with
    | none => simp [getOAuthToken, hc, oauthFetchAndSave, hf, saveCachedToken]
    | some t =>
      simp [getOAuthToken, hc, hmiss t hc, oauthFetchAndSave, hf, saveCachedToken]

/-- C8 witness: failing write after a successful fetch still returns the
fresh token and leaves the (corrupt) cache file untouched. -/
theorem getOAuthToken_cache_failures_nonfatal_witness :
    getOAuthToken ⟨"id", "secret"⟩ .corrupt 0 (.success "abc" (some 3600)) true =
      ⟨.ok "abc", .corrupt, [.httpPost]⟩ := by
  have h := getOAuthToken_cache_failures_nonfatal.2.2 ⟨"id", "secret"⟩ .corrupt 0
    (.success "abc" (some 3600)) ⟨"abc", some (0 + 3300 * 1000)⟩ [.httpPost]
    (by simp [fetchNewToken]) (fun t ht => by simp [loadCachedToken] at ht)
  simpa using h
